import Mathlib

/-!
Verification of the warehouse-management application (a Flask app over a
bounded storage pool `Varasto`).

The repository ships `src/app.py` (the request handlers) and the two test
files.  The `Varasto` class itself (`varasto.py`) and the `/search` route are
imported and tested by the shipped files but their code is not present, so
those two pieces are modelled from the specification; everything else is
translated from `src/app.py`.

Numbers are modelled as rationals: the code's clamping arithmetic uses only
`max`, `min`, `+`, `-` and order comparisons, which behave identically on any
linearly ordered field.
-/

/-- Modelled from the spec: the `Varasto` class of `varasto.py` (missing from
the sources; only its callers and tests are shipped).  A bounded pool holding
a capacity (`tilavuus`) and a current fill level (`saldo`). -/
structure Varasto where
  tilavuus : ℚ
  saldo : ℚ
deriving DecidableEq, Repr

/-- Modelled from the spec: the `Varasto` constructor.
`capacity = max(0, requestedCapacity)`;
`level = max(0, min(requestedInitialLevel, capacity))`, clamping with the
already-clamped capacity.  Never fails. -/
def Varasto.luo (tilavuus alku_saldo : ℚ) : Varasto :=
  { tilavuus := max 0 tilavuus
    saldo := max 0 (min alku_saldo (max 0 tilavuus)) }

/-- Modelled from the spec: `lisaa_varastoon` (deposit).
`amount <= 0` is a no-op; otherwise `level = min(capacity, level + amount)`. -/
def Varasto.lisaa_varastoon (v : Varasto) (maara : ℚ) : Varasto :=
  if maara ≤ 0 then v
  else { v with saldo := min v.tilavuus (v.saldo + maara) }

/-- Modelled from the spec: `ota_varastosta` (withdraw).  Returns the amount
actually removed together with the new state.  `amount <= 0` returns `0` with
no state change; otherwise `removed = min(amount, level)` is subtracted from
the level and returned. -/
def Varasto.ota_varastosta (v : Varasto) (maara : ℚ) : ℚ × Varasto :=
  if maara ≤ 0 then (0, v)
  else
    let otettava := min maara v.saldo
    (otettava, { v with saldo := v.saldo - otettava })

/-- Modelled from the spec: `aseta_tilavuus` (resize).
`capacity = max(0, newCapacity)`; if the level then exceeds the capacity it is
truncated to the capacity.  Never fails. -/
def Varasto.aseta_tilavuus (v : Varasto) (uusi : ℚ) : Varasto :=
  let t := max 0 uusi
  { tilavuus := t, saldo := if v.saldo > t then t else v.saldo }

/-- The invariant of a pool: non-negative capacity and a level inside
`[0, capacity]` (spec invariants I1 and I2). -/
def Varasto.inv (v : Varasto) : Prop :=
  0 ≤ v.tilavuus ∧ 0 ≤ v.saldo ∧ v.saldo ≤ v.tilavuus

instance (v : Varasto) : Decidable v.inv := by
  unfold Varasto.inv; infer_instance

/-- One mutating pool operation with its numeric argument. -/
inductive VarastoOp where
  | lisaa (maara : ℚ)
  | ota (maara : ℚ)
  | aseta (uusi : ℚ)
deriving DecidableEq, Repr

/-- Apply one operation to a pool (the withdraw return value is dropped). -/
def applyOp (v : Varasto) : VarastoOp → Varasto
  | .lisaa m => v.lisaa_varastoon m
  | .ota m => (v.ota_varastosta m).2
  | .aseta u => v.aseta_tilavuus u

/-- Run a sequence of operations left to right. -/
def runOps (v : Varasto) : List VarastoOp → Varasto
  | [] => v
  | o :: os => runOps (applyOp v o) os

lemma Varasto.luo_inv (c l : ℚ) : (Varasto.luo c l).inv := by
  refine ⟨le_max_left 0 c, le_max_left 0 _, ?_⟩
  simp only [Varasto.luo, max_le_iff, le_max_left, true_and]
  exact min_le_right l (max 0 c)

lemma applyOp_inv (v : Varasto) (o : VarastoOp) (h : v.inv) : (applyOp v o).inv := by
  obtain ⟨hc, hl, hu⟩ := h
  cases o with
  | lisaa m =>
    simp only [applyOp, Varasto.lisaa_varastoon]
    split
    · exact ⟨hc, hl, hu⟩
    · rename_i hm
      push_neg at hm
      refine ⟨hc, le_min hc (by linarith), min_le_left _ _⟩
  | ota m =>
    simp only [applyOp, Varasto.ota_varastosta]
    split
    · exact ⟨hc, hl, hu⟩
    · rename_i hm
      push_neg at hm
      refine ⟨hc, ?_, ?_⟩
      · show 0 ≤ v.saldo - min m v.saldo
        have := min_le_right m v.saldo
        linarith
      · show v.saldo - min m v.saldo ≤ v.tilavuus
        have h0 : 0 ≤ min m v.saldo := le_min (le_of_lt hm) hl
        linarith
  | aseta u =>
    simp only [applyOp, Varasto.aseta_tilavuus]
    refine ⟨le_max_left 0 u, ?_, ?_⟩
    · split
      · exact le_max_left 0 u
      · exact hl
    · split
      · exact le_refl _
      · rename_i hgt
        push_neg at hgt
        exact hgt

lemma runOps_inv (v : Varasto) (ops : List VarastoOp) (h : v.inv) :
    (runOps v ops).inv := by
  induction ops generalizing v with
  | nil => exact h
  | cons o os ih => exact ih (applyOp v o) (applyOp_inv v o h)

/-- C1: every pool state reachable by constructing a `Varasto` and then
applying any sequence of deposit, withdraw and resize operations with
arbitrary numeric arguments satisfies `capacity >= 0` and
`0 <= level <= capacity`.  Since every intermediate state is `runOps` of a
prefix of the sequence, the invariant holds after every operation. -/
theorem varasto_reachable_invariant (c l : ℚ) (ops : List VarastoOp) :
    (runOps (Varasto.luo c l) ops).inv :=
  runOps_inv (Varasto.luo c l) ops (Varasto.luo_inv c l)

/-- C3: the constructor clamps the capacity to `max(0, c)` and the initial
level into `[0, capacity]` using the already-clamped capacity; a negative
requested capacity always gives level `0`; construction is total. -/
theorem varasto_luo_spec (c l : ℚ) :
    (Varasto.luo c l).tilavuus = max 0 c ∧
    (Varasto.luo c l).saldo = max 0 (min l (max 0 c)) ∧
    (Varasto.luo (-1) l).saldo = 0 := by
  refine ⟨rfl, rfl, ?_⟩
  simp only [Varasto.luo]
  have h1 : max (0 : ℚ) (-1) = 0 := by norm_num
  rw [h1]
  rcases le_total l 0 with hl | hl
  · rw [min_eq_left hl, max_eq_left hl]
  · rw [min_eq_right hl, max_self]

/-- C2: for every amount `a`, withdrawing leaves the capacity unchanged; if
`a <= 0` it returns `0` and the whole state is unchanged; otherwise it
returns `min(a, level)` and the new level is the old level minus exactly the
returned amount. -/
theorem varasto_ota_spec (a : ℚ) (v : Varasto) :
    ((v.ota_varastosta a).2).tilavuus = v.tilavuus ∧
    (a ≤ 0 → v.ota_varastosta a = (0, v)) ∧
    (¬ a ≤ 0 →
      (v.ota_varastosta a).1 = min a v.saldo ∧
      (v.ota_varastosta a).2.saldo = v.saldo - (v.ota_varastosta a).1) := by
  by_cases h : a ≤ 0 <;> simp [Varasto.ota_varastosta, h]

theorem varasto_ota_spec_witness :
    ¬ (7 : ℚ) ≤ 0 ∧
    (((⟨10, 5⟩ : Varasto).ota_varastosta 7).1 = min 7 (⟨10, 5⟩ : Varasto).saldo ∧
     ((⟨10, 5⟩ : Varasto).ota_varastosta 7).2.saldo =
       (⟨10, 5⟩ : Varasto).saldo - ((⟨10, 5⟩ : Varasto).ota_varastosta 7).1) :=
  ⟨by decide, (varasto_ota_spec 7 ⟨10, 5⟩).2.2 (by decide)⟩

/-- C4: for every amount `a`, depositing leaves the capacity unchanged; if
`a <= 0` the state is unchanged; otherwise the new level is
`min(capacity, level + a)`. -/
theorem varasto_lisaa_spec (a : ℚ) (v : Varasto) :
    (v.lisaa_varastoon a).tilavuus = v.tilavuus ∧
    (a ≤ 0 → v.lisaa_varastoon a = v) ∧
    (¬ a ≤ 0 → (v.lisaa_varastoon a).saldo = min v.tilavuus (v.saldo + a)) := by
  by_cases h : a ≤ 0 <;> simp [Varasto.lisaa_varastoon, h]

theorem varasto_lisaa_spec_witness :
    (-3 : ℚ) ≤ 0 ∧ (⟨10, 5⟩ : Varasto).lisaa_varastoon (-3) = ⟨10, 5⟩ :=
  ⟨by decide, (varasto_lisaa_spec (-3) ⟨10, 5⟩).2.1 (by decide)⟩

/-- C5: resizing sets the capacity to `max(0, newCapacity)`, truncates the
level to the new capacity when it exceeds it and keeps the level otherwise;
it is a total function, so it never fails. -/
theorem varasto_aseta_spec (u : ℚ) (v : Varasto) :
    (v.aseta_tilavuus u).tilavuus = max 0 u ∧
    (v.saldo > max 0 u → (v.aseta_tilavuus u).saldo = max 0 u) ∧
    (¬ v.saldo > max 0 u → (v.aseta_tilavuus u).saldo = v.saldo) := by
  by_cases h : v.saldo > max 0 u <;> simp [Varasto.aseta_tilavuus, h]

theorem varasto_aseta_spec_witness :
    (⟨10, 8⟩ : Varasto).saldo > max 0 3 ∧
    ((⟨10, 8⟩ : Varasto).aseta_tilavuus 3).saldo = max 0 3 :=
  ⟨by decide, (varasto_aseta_spec 3 ⟨10, 8⟩).2.1 (by decide)⟩

/-- C6: every pool operation is a total function (the embedding returns a
value for every rational argument, mirroring the code's lack of any error
path), and from any state satisfying the invariant each operation — with any
argument, negative, zero or over-range — produces a state satisfying the
invariant; construction does so from any pair of arguments. -/
theorem varasto_never_fails (c l a w u : ℚ) (v : Varasto) (h : v.inv) :
    (Varasto.luo c l).inv ∧ (v.lisaa_varastoon a).inv ∧
    ((v.ota_varastosta w).2).inv ∧ (v.aseta_tilavuus u).inv :=
  ⟨Varasto.luo_inv c l, applyOp_inv v (.lisaa a) h,
   applyOp_inv v (.ota w) h, applyOp_inv v (.aseta u) h⟩

theorem varasto_never_fails_witness :
    (⟨10, 5⟩ : Varasto).inv ∧
    ((Varasto.luo 3 (-2)).inv ∧ ((⟨10, 5⟩ : Varasto).lisaa_varastoon 100).inv ∧
     (((⟨10, 5⟩ : Varasto).ota_varastosta 100).2).inv ∧
     ((⟨10, 5⟩ : Varasto).aseta_tilavuus (-4)).inv) :=
  ⟨by decide, varasto_never_fails 3 (-2) 100 100 (-4) ⟨10, 5⟩ (by decide)⟩

/-- Drop leading whitespace characters from a character list. -/
def dropLeadingWhite : List Char → List Char
  | [] => []
  | c :: t => if c.isWhitespace then dropLeadingWhite t else c :: t

/-- Python's `str.strip()` as used by `create_warehouse` in `src/app.py`: remove leading and
trailing whitespace (modelled over the character list so that it is
kernel-evaluable; Python also strips a few rarer Unicode spaces). -/
def stripName (s : String) : String :=
  ⟨(dropLeadingWhite ((dropLeadingWhite s.data).reverse)).reverse⟩

/-- The in-memory `warehouses` dict of `src/app.py`, as an insertion-ordered
association list from names to pools. -/
abbrev Registry := List (String × Varasto)

/-- Lookup modelling `name in warehouses` / `warehouses[name]`: first binding of `name`. -/
def lookupWarehouse (reg : Registry) (name : String) : Option Varasto :=
  match reg with
  | [] => none
  | (k, w) :: rest => if k = name then some w else lookupWarehouse rest name

/-- Insertion modelling `warehouses[name] = w` for a fresh key: Python dicts append new keys in
insertion order. -/
def insertWarehouse (reg : Registry) (name : String) (w : Varasto) : Registry :=
  reg ++ [(name, w)]

/-- In-place mutation of the pool bound to `name` (Python mutates the
`Varasto` object held in the dict). -/
def updateWarehouse (reg : Registry) (name : String) (w : Varasto) : Registry :=
  reg.map fun p => if p.1 = name then (p.1, w) else p

/-- The observable outcome of a request handler in `src/app.py`: a rendered
page, a rendered page carrying an error message, a rendered page carrying the
take-confirmation message with the amount actually taken, or a redirect. -/
inductive Response where
  | renderPage
  | renderError (msg : String)
  | tookMessage (taken : ℚ)
  | redirectIndex
  | redirectView (name : String)
deriving DecidableEq, Repr

/-- The POST branch of `create_warehouse` in `src/app.py`, with
`_validate_create_input` inlined in the same check order (parse check, then
empty name, then duplicate name).  `parsed` is the result of
`_parse_floats(capacity_str, balance_str)`, `none` when `float()` raises
`ValueError`.  The submitted name is stripped before validation and use. -/
def createWarehousePost (reg : Registry) (rawName : String)
    (parsed : Option (ℚ × ℚ)) : Response × Registry :=
  let name := stripName rawName
  match parsed with
  | none => (.renderError "Capacity and initial balance must be numbers", reg)
  | some (c, b) =>
    if name = "" then (.renderError "Name is required", reg)
    else if (lookupWarehouse reg name).isSome then
      (.renderError "A warehouse with this name already exists", reg)
    else (.redirectIndex, insertWarehouse reg name (Varasto.luo c b))

/-- Handler `view_warehouse` from `src/app.py`: redirect to the index when the name
is missing, otherwise render the detail page.  Never changes the registry. -/
def viewWarehouse (reg : Registry) (name : String) : Response × Registry :=
  match lookupWarehouse reg name with
  | none => (.redirectIndex, reg)
  | some _ => (.renderPage, reg)

/-- The POST branch of `modify_warehouse` in `src/app.py` (including
`_update_warehouse_capacity`): missing name redirects; unparsable capacity
renders an error; otherwise `aseta_tilavuus` runs and the handler redirects
to the detail view. -/
def modifyWarehousePost (reg : Registry) (name : String)
    (parsed : Option ℚ) : Response × Registry :=
  match lookupWarehouse reg name with
  | none => (.redirectIndex, reg)
  | some w =>
    match parsed with
    | none => (.renderError "Capacity must be a number", reg)
    | some c => (.redirectView name, updateWarehouse reg name (w.aseta_tilavuus c))

/-- The POST branch of `add_items` in `src/app.py`: missing name redirects;
unparsable amount renders an error; otherwise `lisaa_varastoon` runs and the
handler redirects to the detail view. -/
def addItemsPost (reg : Registry) (name : String)
    (parsed : Option ℚ) : Response × Registry :=
  match lookupWarehouse reg name with
  | none => (.redirectIndex, reg)
  | some w =>
    match parsed with
    | none => (.renderError "Amount must be a number", reg)
    | some a => (.redirectView name, updateWarehouse reg name (w.lisaa_varastoon a))

/-- The POST branch of `take_items` in `src/app.py`: missing name redirects;
unparsable amount renders an error; otherwise `ota_varastosta` runs and the
page reports the amount actually taken. -/
def takeItemsPost (reg : Registry) (name : String)
    (parsed : Option ℚ) : Response × Registry :=
  match lookupWarehouse reg name with
  | none => (.redirectIndex, reg)
  | some w =>
    match parsed with
    | none => (.renderError "Amount must be a number", reg)
    | some a =>
      let r := w.ota_varastosta a
      (.tookMessage r.1, updateWarehouse reg name r.2)

/-- Does the pattern occur at the start of the text? -/
def charsStartWith : List Char → List Char → Bool
  | _, [] => true
  | [], _ :: _ => false
  | c :: s, d :: p => c == d && charsStartWith s p

/-- Does the pattern occur as a contiguous run anywhere in the text? -/
def charsContain : List Char → List Char → Bool
  | [], p => p.isEmpty
  | c :: t, p => charsStartWith (c :: t) p || charsContain t p

/-- Modelled from the spec: case-insensitive substring match of a search
query against a warehouse name (the filtering required of the listing
interface: "filter them by case-insensitive substring match on name"). -/
def nameMatches (name q : String) : Bool :=
  charsContain (name.data.map Char.toLower) (q.data.map Char.toLower)

/-- The outcome of the search page: either the distinguished empty-query
state ("Please enter a search term") or a list of matching entries. -/
inductive SearchView where
  | noQuery
  | results (items : List (String × Varasto))
deriving DecidableEq, Repr

/-- Modelled from the spec: the `/search` route (absent from the shipped
sources; only its tests are).  An empty query yields the distinguished
no-query state; otherwise the registry is filtered by case-insensitive
substring match of the query against each name. -/
def searchWarehouses (reg : Registry) (q : String) : SearchView :=
  if q = "" then SearchView.noQuery
  else SearchView.results (reg.filter fun p => nameMatches p.1 q)

/-- A pair is shown by a search outcome. -/
def searchHit : SearchView → (String × Varasto) → Prop
  | .noQuery, _ => False
  | .results l, p => p ∈ l

lemma charsStartWith_iff (p s : List Char) :
    charsStartWith s p = true ↔ p <+: s := by
  induction p generalizing s with
  | nil => simp [charsStartWith]
  | cons d p ih =>
    cases s with
    | nil => simp [charsStartWith]
    | cons c t =>
      simp only [charsStartWith, Bool.and_eq_true, beq_iff_eq, ih,
        List.cons_prefix_cons]
      exact and_congr_left fun _ => eq_comm

lemma charsContain_iff (s p : List Char) :
    charsContain s p = true ↔ p <:+: s := by
  induction s with
  | nil => simp [charsContain, List.isEmpty_iff, List.infix_nil]
  | cons c t ih =>
    simp [charsContain, Bool.or_eq_true, charsStartWith_iff, ih,
      List.infix_cons_iff]

lemma nameMatches_iff (name q : String) :
    nameMatches name q = true ↔
      (q.data.map Char.toLower) <:+: (name.data.map Char.toLower) :=
  charsContain_iff _ _

/-- C7: for every registry and non-empty query, the search outcome shows
exactly the pairs whose name contains the query as a case-insensitive
substring (the lowercased query is a contiguous run inside the lowercased
name); the empty query yields the distinguished no-query outcome, which
differs both from showing every entry and from showing none. -/
theorem search_spec (reg : Registry) (q : String) (p : String × Varasto) :
    (q = "" → searchWarehouses reg q = SearchView.noQuery) ∧
    SearchView.noQuery ≠ SearchView.results reg ∧
    SearchView.noQuery ≠ SearchView.results [] ∧
    (q ≠ "" →
      (searchHit (searchWarehouses reg q) p ↔
        p ∈ reg ∧ (q.data.map Char.toLower) <:+: (p.1.data.map Char.toLower))) := by
  refine ⟨fun h => by simp [searchWarehouses, h], by simp, by simp, fun h => ?_⟩
  simp only [searchWarehouses, if_neg h, searchHit, List.mem_filter,
    nameMatches_iff]

theorem search_spec_witness :
    ("warehouse" : String) ≠ "" ∧
    (searchHit
        (searchWarehouses
          [("Big Warehouse", (⟨100, 0⟩ : Varasto)), ("Depot", (⟨5, 0⟩ : Varasto))]
          "warehouse")
        ("Big Warehouse", (⟨100, 0⟩ : Varasto)) ↔
      ("Big Warehouse", (⟨100, 0⟩ : Varasto)) ∈
          [("Big Warehouse", (⟨100, 0⟩ : Varasto)), ("Depot", (⟨5, 0⟩ : Varasto))] ∧
        ("warehouse".data.map Char.toLower) <:+:
          ("Big Warehouse".data.map Char.toLower)) :=
  ⟨by decide,
   (search_spec [("Big Warehouse", ⟨100, 0⟩), ("Depot", ⟨5, 0⟩)] "warehouse"
      ("Big Warehouse", ⟨100, 0⟩)).2.2.2 (by decide)⟩

/-- C8 counterexample: a POST to the add endpoint whose amount field does not
parse, but whose warehouse name is absent from the registry, redirects to the
index instead of reporting the "must be a number" error (the name check in
`add_items` runs before the parse check).  The registry is still unchanged. -/
theorem add_parse_error_absent_name_redirects :
    addItemsPost [] "X" none = (Response.redirectIndex, ([] : Registry)) ∧
    (Response.redirectIndex : Response) ≠
      Response.renderError "Amount must be a number" :=
  ⟨rfl, by decide⟩

/-- C8 (amended): a POST whose numeric field does not parse never invokes a
pool operation and leaves the registry unchanged; the create handler always
reports the number-format error, and the modify, add and take handlers report
their number-format error whenever the named warehouse exists — when it does
not, they redirect to the index (still without touching any pool). -/
theorem parse_error_atomicity (reg : Registry) (rawName present absent : String)
    (hp : (lookupWarehouse reg present).isSome = true)
    (ha : lookupWarehouse reg absent = none) :
    createWarehousePost reg rawName none =
      (Response.renderError "Capacity and initial balance must be numbers", reg) ∧
    modifyWarehousePost reg present none =
      (Response.renderError "Capacity must be a number", reg) ∧
    addItemsPost reg present none =
      (Response.renderError "Amount must be a number", reg) ∧
    takeItemsPost reg present none =
      (Response.renderError "Amount must be a number", reg) ∧
    modifyWarehousePost reg absent none = (Response.redirectIndex, reg) ∧
    addItemsPost reg absent none = (Response.redirectIndex, reg) ∧
    takeItemsPost reg absent none = (Response.redirectIndex, reg) := by
  obtain ⟨w, hw⟩ := Option.isSome_iff_exists.mp hp
  refine ⟨rfl, ?_, ?_, ?_, ?_, ?_, ?_⟩ <;>
    simp [modifyWarehousePost, addItemsPost, takeItemsPost, hw, ha]

theorem parse_error_atomicity_witness :
    (lookupWarehouse [("A", (⟨10, 5⟩ : Varasto))] "A").isSome = true ∧
    lookupWarehouse [("A", (⟨10, 5⟩ : Varasto))] "B" = none ∧
    addItemsPost [("A", (⟨10, 5⟩ : Varasto))] "A" none =
      (Response.renderError "Amount must be a number",
        [("A", (⟨10, 5⟩ : Varasto))]) :=
  ⟨by decide, by decide,
   (parse_error_atomicity [("A", ⟨10, 5⟩)] "X" "A" "B"
      (by decide) (by decide)).2.2.1⟩

/-- C9: creating under a name already bound in the registry (after stripping)
is rejected with the "already exists" error and the registry — every existing
pool included — is unchanged; and a view, modify, add or take request for an
absent name redirects to the index without changing the registry, whatever
the numeric field held. -/
theorem duplicate_and_missing_names (reg : Registry) (rawName absent : String)
    (c b : ℚ) (p : Option ℚ)
    (hne : stripName rawName ≠ "")
    (hdup : (lookupWarehouse reg (stripName rawName)).isSome = true)
    (hab : lookupWarehouse reg absent = none) :
    createWarehousePost reg rawName (some (c, b)) =
      (Response.renderError "A warehouse with this name already exists", reg) ∧
    viewWarehouse reg absent = (Response.redirectIndex, reg) ∧
    modifyWarehousePost reg absent p = (Response.redirectIndex, reg) ∧
    addItemsPost reg absent p = (Response.redirectIndex, reg) ∧
    takeItemsPost reg absent p = (Response.redirectIndex, reg) := by
  refine ⟨?_, ?_, ?_, ?_, ?_⟩ <;>
    simp [createWarehousePost, viewWarehouse, modifyWarehousePost,
      addItemsPost, takeItemsPost, hne, hdup, hab]

theorem duplicate_and_missing_names_witness :
    stripName " A " ≠ "" ∧
    (lookupWarehouse [("A", (⟨10, 5⟩ : Varasto))] (stripName " A ")).isSome = true ∧
    createWarehousePost [("A", (⟨10, 5⟩ : Varasto))] " A " (some (1, 2)) =
      (Response.renderError "A warehouse with this name already exists",
        [("A", (⟨10, 5⟩ : Varasto))]) :=
  ⟨by decide, by decide,
   (duplicate_and_missing_names [("A", ⟨10, 5⟩)] " A " "B" 1 2 (some 5)
      (by decide) (by decide) (by decide)).1⟩

lemma dropLeadingWhite_all_white (l : List Char)
    (h : ∀ c ∈ l, c.isWhitespace = true) : dropLeadingWhite l = [] := by
  induction l with
  | nil => rfl
  | cons c t ih =>
    simp only [dropLeadingWhite, if_pos (h c (by simp))]
    exact ih fun d hd => h d (by simp [hd])

lemma stripName_all_white (s : String)
    (h : ∀ c ∈ s.data, c.isWhitespace = true) : stripName s = "" := by
  simp only [stripName, dropLeadingWhite_all_white s.data h, List.reverse_nil,
    dropLeadingWhite]

/-- C10: the submitted name is whitespace-stripped before validation and
storage: with parsable numeric fields, a whitespace-only name is rejected
with "Name is required" and the registry is unchanged, and a successful
creation binds the stripped name — not the raw submitted string — in the
registry. -/
theorem create_strips_name (reg : Registry) (raw : String) (c b : ℚ) :
    ((∀ ch ∈ raw.data, ch.isWhitespace = true) →
      createWarehousePost reg raw (some (c, b)) =
        (Response.renderError "Name is required", reg)) ∧
    (stripName raw ≠ "" → lookupWarehouse reg (stripName raw) = none →
      createWarehousePost reg raw (some (c, b)) =
        (Response.redirectIndex,
          insertWarehouse reg (stripName raw) (Varasto.luo c b))) := by
  constructor
  · intro h
    simp [createWarehousePost, stripName_all_white raw h]
  · intro h1 h2
    simp [createWarehousePost, h1, h2]

theorem create_strips_name_witness :
    ((∀ ch ∈ ("   " : String).data, ch.isWhitespace = true) ∧
      createWarehousePost [] "   " (some (4, 1)) =
        (Response.renderError "Name is required", ([] : Registry))) ∧
    (stripName "  New  " ≠ "" ∧
      lookupWarehouse [("A", (⟨10, 5⟩ : Varasto))] (stripName "  New  ") = none ∧
      createWarehousePost [("A", (⟨10, 5⟩ : Varasto))] "  New  " (some (7, 3)) =
        (Response.redirectIndex,
          insertWarehouse [("A", (⟨10, 5⟩ : Varasto))] "New" (Varasto.luo 7 3))) := by
  refine ⟨⟨by decide, (create_strips_name [] "   " 4 1).1 (by decide)⟩,
    by decide, by decide, ?_⟩
  have h := (create_strips_name [("A", ⟨10, 5⟩)] "  New  " 7 3).2
    (by decide) (by decide)
  rw [h]
  decide
